import Mathlib

/-!
Verification of the mython interpreter sources (`src/mython/lexer.cpp`,
`src/mython/runtime.cpp`, `src/mython/statement.cpp`) against their
natural-language specification.

The C++ sources are shallowly embedded: character streams become `List Char`,
C++ `int` values become `Int` (no arithmetic in the verified claims depends on
32-bit wrap-around), `std::istringstream` buffers become `List Char`,
exceptions become an explicit `Except`-style error result, and the mutable
closure / heap / output stream are threaded explicitly.  All definitions are
computable and reduce in the kernel, so concrete runs are settled by `rfl` or
`decide`.
-/

/-! ## Lexer: token model (`parse::token_type`, lexer.cpp) -/

inductive Token where
  | Class | Return | If | Else | Def | Print | Or | NoneTok | And | Not
  | TrueTok | FalseTok
  | Newline | Indent | Dedent | Eof
  | Eq | NotEq | LessOrEq | GreaterOrEq
  | Number (value : Int)
  | Id (value : List Char)
  | String (value : List Char)
  | Char (value : Char)
  deriving DecidableEq, Repr

/-! ## Lexer: helper routines (`parse::details`, lexer.cpp lines 20-143) -/

/-- Model of `details::IsSpecialChar` (lexer.cpp:20). -/
def IsSpecialChar (c : Char) : Bool :=
  c = '=' || c = '!' || c = '<' || c = '>'

/-- Model of `details::ReadCompareOperator` (lexer.cpp:36). -/
def ReadCompareOperator (c : Char) : Token :=
  if c = '=' then .Eq
  else if c = '!' then .NotEq
  else if c = '<' then .LessOrEq
  else .GreaterOrEq

/-- Model of `details::ReadKeyword` (lexer.cpp:50): a literal equal to a keyword becomes
that keyword token, anything else an `Id`. -/
def ReadKeyword (literal : List Char) : Token :=
  if literal = "class".toList then .Class
  else if literal = "return".toList then .Return
  else if literal = "if".toList then .If
  else if literal = "else".toList then .Else
  else if literal = "def".toList then .Def
  else if literal = "print".toList then .Print
  else if literal = "or".toList then .Or
  else if literal = "None".toList then .NoneTok
  else if literal = "and".toList then .And
  else if literal = "not".toList then .Not
  else if literal = "True".toList then .TrueTok
  else if literal = "False".toList then .FalseTok
  else .Id literal

/-- The character class accepted by `details::ReadLiteral` (lexer.cpp:85):
`isdigit(c) || isalpha(c) || c == '_'` (ASCII, matching the C locale). -/
def isLiteralChar (c : Char) : Bool :=
  c.isDigit || c.isAlpha || c = '_'

/-- Model of `details::ReadLiteral` (lexer.cpp:80): consume the maximal run of literal
characters, putting the first non-matching character back.  Returns the
literal and the rest of the line buffer. -/
def ReadLiteral (line : List Char) : List Char × List Char :=
  (line.takeWhile isLiteralChar, line.dropWhile isLiteralChar)

/-- Decimal value of a digit run, as read by `operator>>(istream&, int&)`. -/
def digitsToNat (ds : List Char) : Nat :=
  ds.foldl (fun a c => a * 10 + (c.toNat - 48)) 0

/-- Model of `details::ReadNumber` (lexer.cpp:96): `input >> number` with a digit as
the first character reads the maximal digit run.  (The C++ `int` may overflow
on huge literals; no claim depends on that, so the value is kept exact.) -/
def ReadNumber (line : List Char) : Int × List Char :=
  ((digitsToNat (line.takeWhile Char.isDigit) : Int), line.dropWhile Char.isDigit)

/-- Model of `details::ReadString` (lexer.cpp:107): consume characters until the
closing quote `qc` or the end of the buffer.  A backslash reads one more
character: the six escapes `n t r \ ' "` push the corresponding character,
any other escaped character is pushed by NO case of the `switch` and is hence
dropped.  When `get` fails right after a backslash, `c` keeps its old value
`'\\'` and the `switch` pushes a backslash.  Reaching the end of the buffer
without a closing quote simply ends the loop: no error is raised.
Returns the accumulated payload and the rest of the buffer. -/
def ReadString : List Char → Char → List Char × List Char
  | [], _ => ([], [])
  | c :: rest, qc =>
    if c = qc then ([], rest)
    else if c = '\\' then
      match rest with
      | [] => (['\\'], [])
      | e :: rest2 =>
        if e = 'n' then ('\n' :: (ReadString rest2 qc).1, (ReadString rest2 qc).2)
        else if e = 't' then ('\t' :: (ReadString rest2 qc).1, (ReadString rest2 qc).2)
        else if e = 'r' then ('\r' :: (ReadString rest2 qc).1, (ReadString rest2 qc).2)
        else if e = '\\' then ('\\' :: (ReadString rest2 qc).1, (ReadString rest2 qc).2)
        else if e = '\'' then ('\'' :: (ReadString rest2 qc).1, (ReadString rest2 qc).2)
        else if e = '"' then ('"' :: (ReadString rest2 qc).1, (ReadString rest2 qc).2)
        else ReadString rest2 qc
    else (c :: (ReadString rest qc).1, (ReadString rest qc).2)

/-! ## Lexer: line handling and state (`parse::Lexer`, lexer.cpp lines 214-307) -/

/-- Model of `std::getline` over the whole stream: split a character stream into lines.
The terminating `'\n'` is consumed and not part of the line; a final line
without `'\n'` is still delivered; an empty stream delivers no line. -/
def splitLinesGo : List Char → List Char → List (List Char)
  | [], acc => [acc.reverse]
  | '\n' :: rest, acc =>
    acc.reverse :: (match rest with
      | [] => []
      | _ :: _ => splitLinesGo rest [])
  | c :: rest, acc => splitLinesGo rest (c :: acc)

/-- The input stream as the list of its lines, as `getline` delivers them. -/
def splitLines (cs : List Char) : List (List Char) :=
  match cs with
  | [] => []
  | _ :: _ => splitLinesGo cs []

/-- Model of `parse::Lexer::Context`: the indentation state machine counters.  The
header initialises both to zero. -/
structure Context where
  indent : Nat
  new_indent : Nat
  deriving DecidableEq, Repr

/-- Result of `Lexer::ReadNextLine`: the new line buffer, the remaining input
lines, the updated context and whether the input stream hit end-of-file. -/
structure RNLResult where
  line : List Char
  input : List (List Char)
  ctx : Context
  eof : Bool
  deriving Repr

/-- Model of `Lexer::ReadNextLine` (lexer.cpp:291): `getline` until a line containing a
non-space character that is not `'#'`; such a line gets `new_indent` set to
its leading-space count divided by 2 and is returned with `'\n'` appended.
Exhausting the stream returns an empty buffer with the stream at eof. -/
def ReadNextLine : List (List Char) → Context → RNLResult
  | [], ctx => ⟨[], [], ctx, true⟩
  | l :: rest, ctx =>
    match l.dropWhile (fun ch => ch = ' ') with
    | [] => ReadNextLine rest ctx
    | ch :: _ =>
      if ch = '#' then ReadNextLine rest ctx
      else
        ⟨l ++ ['\n'], rest,
          { ctx with new_indent := (l.takeWhile (fun c => c = ' ')).length / 2 },
          false⟩

/-- The state of `parse::Lexer`: remaining input lines (`input_`), current
line buffer (`line_`), indentation context (`context_`), and the stream's
eof flag. -/
structure LexerState where
  input : List (List Char)
  line : List Char
  ctx : Context
  eof : Bool
  deriving Repr

/-- Refill the line buffer: `line_ = ReadNextLine(input_, context_)`. -/
def refill (st : LexerState) : LexerState :=
  let r := ReadNextLine st.input st.ctx
  ⟨r.input, r.line, r.ctx, r.eof⟩

/-- The `while (c == ' ') line_.get(c);` loop in `Lexer::ReadToken`
(lexer.cpp:258).  Since every line buffer ends in `'\n'`, the loop always
finds a non-space character before the buffer ends (on an empty buffer the
C++ `get` fails and leaves `c` unchanged). -/
def skipSpaces : Char → List Char → Char × List Char
  | c, line =>
    if c = ' ' then
      match line with
      | [] => (c, [])
      | d :: rest => skipSpaces d rest
    else (c, line)

/-- Model of `line_.ignore(max, '\n')` (lexer.cpp:263): discard up to and including the
next `'\n'`. -/
def ignoreThroughNewline (line : List Char) : List Char :=
  (line.dropWhile (fun ch => ch ≠ '\n')).drop 1

/-- The in-line part of `Lexer::ReadToken` (lexer.cpp:254-288), entered after
`line_.get(c)` succeeded with character `c` and remaining buffer `line`.
Never touches the indentation context. -/
def readFromLine (c0 : Char) (line0 : List Char) : Token × List Char :=
  if c0 = '\n' then (.Newline, line0)
  else
    let p := skipSpaces c0 line0
    let c := p.1
    let line := p.2
    if c = '#' then (.Newline, ignoreThroughNewline line)
    else if IsSpecialChar c && line.head? = some '=' then
      (ReadCompareOperator c, line.tail)
    else if c.isAlpha || c = '_' then
      let r := ReadLiteral (c :: line)
      (ReadKeyword r.1, r.2)
    else if c = '"' || c = '\'' then
      let r := ReadString line c
      (.String r.1, r.2)
    else if c.isDigit then
      let r := ReadNumber (c :: line)
      (.Number r.1, r.2)
    else (.Char c, line)

/-- One pass over the body of `Lexer::ReadToken` (lexer.cpp:228).  `none`
means the pass reached `line_ = ReadNextLine(...); return ReadToken();`
(buffer empty, stream not at eof), i.e. the token must be produced by a
second pass after a refill. -/
def readTokenPass (st : LexerState) : Option (Token × LexerState) :=
  if st.ctx.indent < st.ctx.new_indent then
    some (.Indent, { st with ctx := { st.ctx with indent := st.ctx.indent + 1 } })
  else if st.ctx.new_indent < st.ctx.indent then
    some (.Dedent, { st with ctx := { st.ctx with indent := st.ctx.indent - 1 } })
  else
    match st.line with
    | c :: rest =>
      let r := readFromLine c rest
      some (r.1, { st with line := r.2 })
    | [] =>
      if st.eof then
        if 0 < st.ctx.indent then
          some (.Dedent, { st with ctx := ⟨st.ctx.indent - 1, 0⟩ })
        else
          some (.Eof, st)
      else none

/-- Model of `Lexer::ReadToken` (lexer.cpp:228).  The C++ function calls itself once
after refilling the line buffer; after a refill the buffer is non-empty or
the stream is at eof (`readTokenPass_refill_ne_none` below), so the recursion
is bounded by one extra pass and is unfolded here.  The final arm is
unreachable. -/
def readToken (st : LexerState) : Token × LexerState :=
  match readTokenPass st with
  | some r => r
  | none =>
    match readTokenPass (refill st) with
    | some r => r
    | none => (.Eof, refill st)

/-- Model of `Lexer::NextToken` iterated: the first `n` tokens produced from state
`st`.  The constructor already calls `NextToken()`, so the stream produced
from the initial state is exactly the sequence of `CurrentToken` values seen
by a client that keeps calling `NextToken`. -/
def tokensFrom (st : LexerState) : Nat → List Token
  | 0 => []
  | n + 1 =>
    let r := readToken st
    r.1 :: tokensFrom r.2 n

/-- The lexer state after producing `n` tokens. -/
def runState (st : LexerState) : Nat → LexerState
  | 0 => st
  | n + 1 => runState (readToken st).2 n

/-- Model of `Lexer::Lexer` (lexer.cpp:214): zero-initialised context, then
`line_ = ReadNextLine(input_, context_)`. -/
def Lexer.init (cs : List Char) : LexerState :=
  refill ⟨splitLines cs, [], ⟨0, 0⟩, false⟩

/-- The first `n` tokens the lexer produces on character stream `cs`. -/
def lexTokens (cs : List Char) (n : Nat) : List Token :=
  tokensFrom (Lexer.init cs) n


/-! ## Lexer: counting indentation events -/

/-- Number of `Indent` tokens in a token list. -/
def countIndent : List Token → Nat
  | [] => 0
  | .Indent :: r => countIndent r + 1
  | _ :: r => countIndent r

/-- Number of `Dedent` tokens in a token list. -/
def countDedent : List Token → Nat
  | [] => 0
  | .Dedent :: r => countDedent r + 1
  | _ :: r => countDedent r

/-! ## Lexer: string-literal behaviour (claims C6 and C7) -/

/-- Whether the traversal of `details::ReadString` over `line` reaches an
unescaped closing quote `qc` (a backslash consumes the following character
first, mirroring the loop in lexer.cpp:111-140). -/
def closesString (qc : Char) : List Char → Bool
  | [] => false
  | c :: rest =>
    if c = qc then true
    else if c = '\\' then
      match rest with
      | [] => false
      | _ :: rest2 => closesString qc rest2
    else closesString qc rest

/-! ## Runtime: AST, classes and methods (`ast::Statement`, `runtime::Class`) -/

/-- The comparator passed to `ast::Comparison` (one of the six functions of
runtime.cpp lines 137-205). -/
inductive Comparator where
  | eq | ne | lt | gt | le | ge
  deriving DecidableEq, Repr

mutual

/-- The AST node kinds of statement.cpp (§ast).  Every node is a
`Statement`; literal constants do not occur in statement.cpp, values enter
programs through closures.  `FieldAssignment` stores its `VariableValue`
receiver as the dotted path it holds. -/
inductive Stmt where
  | Assignment (var : List Char) (rv : Stmt)
  | VariableValue (dotted_ids : List (List Char))
  | Print (args : List Stmt)
  | MethodCall (object : Stmt) (method : List Char) (args : List Stmt)
  | Stringify (argument : Stmt)
  | Add (lhs rhs : Stmt)
  | Sub (lhs rhs : Stmt)
  | Mult (lhs rhs : Stmt)
  | Div (lhs rhs : Stmt)
  | Compound (statements : List Stmt)
  | Return (statement : Stmt)
  | ClassDefinition (cls : Cls)
  | FieldAssignment (object : List (List Char)) (field_name : List Char) (rv : Stmt)
  | IfElse (condition : Stmt) (if_body : Stmt) (else_body : Option Stmt)
  | Or (lhs rhs : Stmt)
  | And (lhs rhs : Stmt)
  | Not (argument : Stmt)
  | Comparison (cmp : Comparator) (lhs rhs : Stmt)
  | NewInstance (cls : Cls) (args : List Stmt)
  | MethodBody (body : Stmt)

/-- `runtime::Class` (runtime.cpp:107): name, ordered method list, optional
parent. -/
inductive Cls where
  | mk (name : List Char) (methods : List Method) (parent : Option Cls)

/-- `runtime::Method`: name, formal parameter names, body. -/
inductive Method where
  | mk (name : List Char) (formal_params : List (List Char)) (body : Stmt)

end

def Cls.name : Cls → List Char
  | .mk n _ _ => n

def Cls.methods : Cls → List Method
  | .mk _ ms _ => ms

def Cls.parent : Cls → Option Cls
  | .mk _ _ p => p

def Method.name : Method → List Char
  | .mk n _ _ => n

def Method.formal_params : Method → List (List Char)
  | .mk _ ps _ => ps

def Method.body : Method → Stmt
  | .mk _ _ b => b

/-! ## Runtime: values, closures, heap, context -/

/-- `runtime::ObjectHolder` contents: the empty holder (`ObjectHolder::None`)
and the object kinds of runtime.h.  A `ClassInstance` is a heap reference
(`ref` indexes the heap below) together with its class. -/
inductive Value where
  | none
  | number (v : Int)
  | str (v : List Char)
  | bool (b : Bool)
  | cls (c : Cls)
  | inst (c : Cls) (ref : Nat)

/-- The C++ exceptions: `std::runtime_error` with its message,
`Return::ReturnException` carrying a value, a null-pointer dereference
(undefined behaviour after a failed `TryAs`/empty-holder access, modelled as
a distinct failure), and exhaustion of the evaluation fuel (the model of
non-termination; no claim concerns it). -/
inductive Err where
  | runtimeError (msg : List Char)
  | returnSignal (value : Value)
  | nullDeref
  | outOfFuel

/-- `runtime::Closure` (a name-to-value map; insertion order irrelevant). -/
abbrev Closure := List (List Char × Value)

/-- `closure[name] = v`: update or insert. -/
def closureSet : Closure → List Char → Value → Closure
  | [], n, v => [(n, v)]
  | (m, w) :: rest, n, v =>
    if m = n then (m, v) :: rest else (m, w) :: closureSet rest n v

/-- Lookup, as used behind `closure.count(name)` / `closure[name]`. -/
def closureFind : Closure → List Char → Option Value
  | [], _ => Option.none
  | (m, w) :: rest, n => if m = n then some w else closureFind rest n

/-- The store of instance field closures; `ClassInstance` objects are
heap-allocated and shared, so their `fields_` live here, indexed by `ref`. -/
abbrev Heap := List Closure

def heapGet (h : Heap) (r : Nat) : Closure := h.getD r []

def heapSet (h : Heap) (r : Nat) (c : Closure) : Heap := h.set r c

/-- The mutable surroundings of an `Execute` call: the instance heap and the
output stream of the `runtime::Context`. -/
structure State where
  heap : Heap
  output : List Char

def SELF_NAME : List Char := "self".toList
def ADD_METHOD : List Char := "__add__".toList
def INIT_METHOD : List Char := "__init__".toList
def STR_METHOD : List Char := "__str__".toList
def EQ_METHOD : List Char := "__eq__".toList
def LT_METHOD : List Char := "__lt__".toList

/-- Message of the `runtime_error` thrown by `ClassInstance::Call`
(runtime.cpp:104). -/
def methodNotFoundMsg (method : List Char) : List Char :=
  "Method ".toList ++ method ++ " has not found".toList

def cmpEqMsg : List Char := "Cannot compare objects for equality".toList
def lessNoneMsg : List Char := "Cannot compare objects for equality 1".toList
def lessTypeMsg : List Char := "Cannot compare objects for equality 2".toList
def addMsg : List Char := "Unsupported operand type(s) for +: 'int' and 'str'".toList
def subMsg : List Char := "Unsupported operand type(s) for -".toList
def multMsg : List Char := "Unsupported operand type(s) for *".toList
def divZeroMsg : List Char := "Division by zero".toList
def divTypeMsg : List Char := "Unsupported operand type(s) for /".toList

/-- `runtime::IsTrue` (runtime.cpp:47): a `Number` is true iff non-zero, a
`Bool` is its value, a `String` is true iff non-empty, everything else
(including the empty holder, class objects and instances) is false. -/
def IsTrue : Value → Bool
  | .number n => decide (n ≠ 0)
  | .bool b => b
  | .str s => !s.isEmpty
  | _ => false

/-- `Class::GetMethod` (runtime.cpp:113): scan own methods in order for the
first name match, otherwise recurse into the parent. -/
def Cls.GetMethod : Cls → List Char → Option Method
  | .mk _ methods parent, name =>
    match methods.find? (fun m => m.name = name) with
    | some m => some m
    | Option.none =>
      match parent with
      | some p => Cls.GetMethod p name
      | Option.none => Option.none

/-- `ClassInstance::HasMethod` (runtime.cpp:67): resolve the name through the
chain (first match only) and compare THAT method's arity. -/
def HasMethod (c : Cls) (method : List Char) (argument_count : Nat) : Bool :=
  match Cls.GetMethod c method with
  | some m => decide (m.formal_params.length = argument_count)
  | Option.none => false

/-- The parameter-binding loop of `ClassInstance::Call` (runtime.cpp:95):
`closure[formal_params[i]] = actual_args[i]` for each argument (the guard in
`Call` makes both lists the same length). -/
def bindParams : List (List Char) → List Value → Closure → Closure
  | n :: ns, v :: vs, c => bindParams ns vs (closureSet c n v)
  | _, _, c => c

/-- Modelled from the spec: `VariableValue::GetVarByNameRange` is declared in
statement.h, which is not under src/.  Per §4.4 of the spec, each subsequent
dotted segment resolves on the fields of the current instance, and dotted
access through a non-instance or to a missing field is an error
(`AttributeError`). -/
def GetVarByNameRange : List (List Char) → Value → Heap → Except Err Value
  | [], v, _ => .ok v
  | name :: rest, .inst _ ref, h =>
    match closureFind (heapGet h ref) name with
    | some v => GetVarByNameRange rest v h
    | Option.none => .error (.runtimeError "AttributeError".toList)
  | _ :: _, _, _ => .error (.runtimeError "AttributeError".toList)

/-- Lexicographic `std::string` comparison (`operator<`). -/
def strLt : List Char → List Char → Bool
  | [], [] => false
  | [], _ :: _ => true
  | _ :: _, [] => false
  | a :: as, b :: bs => if a < b then true else if b < a then false else strLt as bs

/-- Decimal rendering of an `int` by `operator<<`. -/
def intToChars (i : Int) : List Char :=
  if i < 0 then '-' :: Nat.toDigits 10 (-i).toNat else Nat.toDigits 10 i.toNat

/-- Rendering of `os << this` for an instance (ClassInstance::Print's
fallback, runtime.cpp:63): the pointer value, modelled as the heap index in
hexadecimal. -/
def addressChars (ref : Nat) : List Char :=
  "0x".toList ++ Nat.toDigits 16 ref


/-! ## Runtime: the evaluator

Each function takes an explicit fuel (method calls make the semantics
genuinely recursive); fuel 0 yields `Err.outOfFuel` and every nested call
runs at the predecessor fuel, so all definitions are structural in the fuel
and reduce in the kernel. -/

mutual

/-- `Statement::Execute` dispatch over the node kinds of statement.cpp.
Returns the result (or the escaped exception), the closure (mutations
through the by-reference closure survive a throw), and the state. -/
def Execute (fuel : Nat) (stmt : Stmt) (c : Closure) (st : State) :
    Except Err Value × Closure × State :=
  match fuel with
  | 0 => (.error .outOfFuel, c, st)
  | fuel + 1 =>
    match stmt with
    | .Assignment var rv =>
      match Execute fuel rv c st with
      | (.ok v, c1, st1) => (.ok v, closureSet c1 var v, st1)
      | (.error e, c1, st1) => (.error e, c1, st1)
    | .VariableValue dotted_ids =>
      match dotted_ids with
      | [] => (.error .nullDeref, c, st)
      | name :: rest =>
        match closureFind c name with
        | Option.none =>
          (.error (.runtimeError
            ("Name ".toList ++ name ++ " is not defined".toList)), c, st)
        | some v =>
          match GetVarByNameRange rest v st.heap with
          | .ok w => (.ok w, c, st)
          | .error e => (.error e, c, st)
    | .Print args => ExecutePrintArgs fuel args true c st
    | .MethodCall object method args =>
      match ExecuteList fuel args c st with
      | (.ok vs, c1, st1) =>
        match Execute fuel object c1 st1 with
        | (.ok v, c2, st2) =>
          match v with
          | .inst cls ref =>
            match Call fuel cls ref method vs st2 with
            | (r, st3) => (r, c2, st3)
          | _ => (.error .nullDeref, c2, st2)
        | (.error e, c2, st2) => (.error e, c2, st2)
      | (.error e, c1, st1) => (.error e, c1, st1)
    | .Stringify argument =>
      match Execute fuel argument c st with
      | (.ok v, c1, st1) =>
        match v with
        | .none => (.ok (.str "None".toList), c1, st1)
        | _ =>
          match ObjectPrint fuel v st1 with
          | (.ok chunk, st2) => (.ok (.str chunk), c1, st2)
          | (.error e, st2) => (.error e, c1, st2)
      | (.error e, c1, st1) => (.error e, c1, st1)
    | .Add lhs rhs =>
      match Execute fuel lhs c st with
      | (.ok vl, c1, st1) =>
        match Execute fuel rhs c1 st1 with
        | (.ok vr, c2, st2) =>
          match vl, vr with
          | .none, _ => (.error (.runtimeError addMsg), c2, st2)
          | _, .none => (.error (.runtimeError addMsg), c2, st2)
          | .number a, .number b => (.ok (.number (a + b)), c2, st2)
          | .str a, .str b => (.ok (.str (a ++ b)), c2, st2)
          | .inst cls ref, w =>
            if HasMethod cls ADD_METHOD 1 then
              match Call fuel cls ref ADD_METHOD [w] st2 with
              | (r, st3) => (r, c2, st3)
            else (.error (.runtimeError addMsg), c2, st2)
          | _, _ => (.error (.runtimeError addMsg), c2, st2)
        | (.error e, c2, st2) => (.error e, c2, st2)
      | (.error e, c1, st1) => (.error e, c1, st1)
    | .Sub lhs rhs =>
      match Execute fuel lhs c st with
      | (.ok vl, c1, st1) =>
        match Execute fuel rhs c1 st1 with
        | (.ok vr, c2, st2) =>
          match vl, vr with
          | .number a, .number b => (.ok (.number (a - b)), c2, st2)
          | _, _ => (.error (.runtimeError subMsg), c2, st2)
        | (.error e, c2, st2) => (.error e, c2, st2)
      | (.error e, c1, st1) => (.error e, c1, st1)
    | .Mult lhs rhs =>
      match Execute fuel lhs c st with
      | (.ok vl, c1, st1) =>
        match Execute fuel rhs c1 st1 with
        | (.ok vr, c2, st2) =>
          match vl, vr with
          | .number a, .number b => (.ok (.number (a * b)), c2, st2)
          | _, _ => (.error (.runtimeError multMsg), c2, st2)
        | (.error e, c2, st2) => (.error e, c2, st2)
      | (.error e, c1, st1) => (.error e, c1, st1)
    | .Div lhs rhs =>
      match Execute fuel lhs c st with
      | (.ok vl, c1, st1) =>
        match Execute fuel rhs c1 st1 with
        | (.ok vr, c2, st2) =>
          match vl, vr with
          | .number a, .number b =>
            if 0 < b then (.ok (.number (Int.tdiv a b)), c2, st2)
            else (.error (.runtimeError divZeroMsg), c2, st2)
          | _, _ => (.error (.runtimeError divTypeMsg), c2, st2)
        | (.error e, c2, st2) => (.error e, c2, st2)
      | (.error e, c1, st1) => (.error e, c1, st1)
    | .Compound statements => ExecuteCompound fuel statements c st
    | .Return statement =>
      match Execute fuel statement c st with
      | (.ok v, c1, st1) => (.error (.returnSignal v), c1, st1)
      | (.error e, c1, st1) => (.error e, c1, st1)
    | .ClassDefinition cls =>
      (.ok (.cls cls), closureSet c cls.name (.cls cls), st)
    | .FieldAssignment object field_name rv =>
      match Execute fuel (.VariableValue object) c st with
      | (.ok v, c1, st1) =>
        match Execute fuel rv c1 st1 with
        | (.ok w, c2, st2) =>
          match v with
          | .inst _ ref =>
            (.ok w, c2,
              { st2 with
                heap := heapSet st2.heap ref
                  (closureSet (heapGet st2.heap ref) field_name w) })
          | _ => (.error .nullDeref, c2, st2)
        | (.error e, c2, st2) => (.error e, c2, st2)
      | (.error e, c1, st1) => (.error e, c1, st1)
    | .IfElse condition if_body else_body =>
      match Execute fuel condition c st with
      | (.ok v, c1, st1) =>
        if IsTrue v then Execute fuel if_body c1 st1
        else
          match else_body with
          | some e => Execute fuel e c1 st1
          | Option.none => (.ok .none, c1, st1)
      | (.error e, c1, st1) => (.error e, c1, st1)
    | .Or lhs rhs =>
      match Execute fuel lhs c st with
      | (.ok v, c1, st1) =>
        if IsTrue v then (.ok (.bool true), c1, st1)
        else
          match Execute fuel rhs c1 st1 with
          | (.ok w, c2, st2) => (.ok (.bool (IsTrue w)), c2, st2)
          | (.error e, c2, st2) => (.error e, c2, st2)
      | (.error e, c1, st1) => (.error e, c1, st1)
    | .And lhs rhs =>
      match Execute fuel lhs c st with
      | (.ok v, c1, st1) =>
        if IsTrue v then
          match Execute fuel rhs c1 st1 with
          | (.ok w, c2, st2) => (.ok (.bool (IsTrue w)), c2, st2)
          | (.error e, c2, st2) => (.error e, c2, st2)
        else (.ok (.bool false), c1, st1)
      | (.error e, c1, st1) => (.error e, c1, st1)
    | .Not argument =>
      match Execute fuel argument c st with
      | (.ok v, c1, st1) => (.ok (.bool (!IsTrue v)), c1, st1)
      | (.error e, c1, st1) => (.error e, c1, st1)
    | .Comparison cmp lhs rhs =>
      match Execute fuel lhs c st with
      | (.ok vl, c1, st1) =>
        match Execute fuel rhs c1 st1 with
        | (.ok vr, c2, st2) =>
          match cmp with
          | .eq =>
            match Equal fuel vl vr st2 with
            | (.ok b, st3) => (.ok (.bool b), c2, st3)
            | (.error e, st3) => (.error e, c2, st3)
          | .ne =>
            match Equal fuel vl vr st2 with
            | (.ok b, st3) => (.ok (.bool (!b)), c2, st3)
            | (.error e, st3) => (.error e, c2, st3)
          | .lt =>
            match Less fuel vl vr st2 with
            | (.ok b, st3) => (.ok (.bool b), c2, st3)
            | (.error e, st3) => (.error e, c2, st3)
          | .gt =>
            match Less fuel vl vr st2 with
            | (.ok true, st3) => (.ok (.bool false), c2, st3)
            | (.ok false, st3) =>
              match Equal fuel vl vr st3 with
              | (.ok b, st4) => (.ok (.bool (!b)), c2, st4)
              | (.error e, st4) => (.error e, c2, st4)
            | (.error e, st3) => (.error e, c2, st3)
          | .le =>
            match Less fuel vl vr st2 with
            | (.ok true, st3) => (.ok (.bool true), c2, st3)
            | (.ok false, st3) =>
              match Equal fuel vl vr st3 with
              | (.ok b, st4) => (.ok (.bool b), c2, st4)
              | (.error e, st4) => (.error e, c2, st4)
            | (.error e, st3) => (.error e, c2, st3)
          | .ge =>
            match Less fuel vl vr st2 with
            | (.ok b, st3) => (.ok (.bool (!b)), c2, st3)
            | (.error e, st3) => (.error e, c2, st3)
        | (.error e, c2, st2) => (.error e, c2, st2)
      | (.error e, c1, st1) => (.error e, c1, st1)
    | .NewInstance cls args =>
      if HasMethod cls INIT_METHOD args.length then
        match ExecuteList fuel args c { st with heap := st.heap ++ [[]] } with
        | (.ok params, c2, st2) =>
          match Call fuel cls st.heap.length INIT_METHOD params st2 with
          | (.ok _, st3) => (.ok (.inst cls st.heap.length), c2, st3)
          | (.error e, st3) => (.error e, c2, st3)
        | (.error e, c2, st2) => (.error e, c2, st2)
      else (.ok (.inst cls st.heap.length), c, { st with heap := st.heap ++ [[]] })
    | .MethodBody body =>
      match Execute fuel body c st with
      | (.ok _, c1, st1) => (.ok .none, c1, st1)
      | (.error (.returnSignal v), c1, st1) => (.ok v, c1, st1)
      | (.error e, c1, st1) => (.error e, c1, st1)

/-- The statement loop of `Compound::Execute` (statement.cpp:184): run each
statement in order, discard the values, return the empty holder. -/
def ExecuteCompound (fuel : Nat) (statements : List Stmt) (c : Closure)
    (st : State) : Except Err Value × Closure × State :=
  match fuel with
  | 0 => (.error .outOfFuel, c, st)
  | fuel + 1 =>
    match statements with
    | [] => (.ok .none, c, st)
    | s :: rest =>
      match Execute fuel s c st with
      | (.ok _, c1, st1) => ExecuteCompound fuel rest c1 st1
      | (.error e, c1, st1) => (.error e, c1, st1)

/-- The argument loop of `MethodCall::Execute` (statement.cpp:99): evaluate
each argument left to right, collecting the values. -/
def ExecuteList (fuel : Nat) (args : List Stmt) (c : Closure) (st : State) :
    Except Err (List Value) × Closure × State :=
  match fuel with
  | 0 => (.error .outOfFuel, c, st)
  | fuel + 1 =>
    match args with
    | [] => (.ok [], c, st)
    | a :: rest =>
      match Execute fuel a c st with
      | (.ok v, c1, st1) =>
        match ExecuteList fuel rest c1 st1 with
        | (.ok vs, c2, st2) => (.ok (v :: vs), c2, st2)
        | (.error e, c2, st2) => (.error e, c2, st2)
      | (.error e, c1, st1) => (.error e, c1, st1)

/-- The loop of `Print::Execute` (statement.cpp:66): separate successive
values with a space, print `None` for the empty holder, delegate other
values to their `Print`, and emit the final newline. -/
def ExecutePrintArgs (fuel : Nat) (args : List Stmt) (is_first : Bool)
    (c : Closure) (st : State) : Except Err Value × Closure × State :=
  match fuel with
  | 0 => (.error .outOfFuel, c, st)
  | fuel + 1 =>
    match args with
    | [] => (.ok .none, c, { st with output := st.output ++ ['\n'] })
    | a :: rest =>
      match Execute fuel a c
          (if is_first then st else { st with output := st.output ++ [' '] }) with
      | (.ok v, c1, st1) =>
        match v with
        | .none =>
          ExecutePrintArgs fuel rest false c1
            { st1 with output := st1.output ++ "None".toList }
        | _ =>
          match ObjectPrint fuel v st1 with
          | (.ok chunk, st2) =>
            ExecutePrintArgs fuel rest false c1
              { st2 with output := st2.output ++ chunk }
          | (.error e, st2) => (.error e, c1, st2)
      | (.error e, c1, st1) => (.error e, c1, st1)

/-- `ClassInstance::Call` (runtime.cpp:87): if the first name match in the
chain has the right arity, run its body in a fresh closure binding `self`
and the formal parameters; otherwise throw `Method <name> has not found`.
The per-call closure is discarded on return. -/
def Call (fuel : Nat) (cls : Cls) (ref : Nat) (method : List Char)
    (actual_args : List Value) (st : State) : Except Err Value × State :=
  match fuel with
  | 0 => (.error .outOfFuel, st)
  | fuel + 1 =>
    if HasMethod cls method actual_args.length then
      match Cls.GetMethod cls method with
      | some class_method =>
        match Execute fuel class_method.body
            (bindParams class_method.formal_params actual_args
              (closureSet [] SELF_NAME (.inst cls ref))) st with
        | (r, _, st1) => (r, st1)
      | Option.none => (.error (.runtimeError (methodNotFoundMsg method)), st)
    else (.error (.runtimeError (methodNotFoundMsg method)), st)

/-- Virtual `Object::Print` dispatch (runtime.cpp / runtime.h): returns the
characters written to the target stream `os`; writes that the call makes to
the context stream (from statements inside a `__str__` body) go into the
returned state.  `ClassInstance::Print` (runtime.cpp:59) calls `__str__`
when the resolved method has arity 0 and prints the pointer (here: the heap
reference) otherwise; dereferencing an empty holder trips the
`AssertIsValid` assert, modelled as `nullDeref`. -/
def ObjectPrint (fuel : Nat) (v : Value) (st : State) :
    Except Err (List Char) × State :=
  match fuel with
  | 0 => (.error .outOfFuel, st)
  | fuel + 1 =>
    match v with
    | .number n => (.ok (intToChars n), st)
    | .str s => (.ok s, st)
    | .bool b => (.ok ((if b then "True" else "False").toList), st)
    | .cls cl => (.ok ("Class ".toList ++ cl.name), st)
    | .inst cl ref =>
      if HasMethod cl STR_METHOD 0 then
        match Call fuel cl ref STR_METHOD [] st with
        | (.ok v2, st1) =>
          match v2 with
          | .none => (.error .nullDeref, st1)
          | _ => ObjectPrint fuel v2 st1
        | (.error e, st1) => (.error e, st1)
      else (.ok (addressChars ref), st)
    | .none => (.error .nullDeref, st)

/-- `runtime::Equal` (runtime.cpp:137).  Two empty holders are equal;
`Number`/`Bool`/`String` pairs compare structurally; an instance exposing
`__eq__/1` is called (a non-`Bool` result is dereferenced through a failed
`TryAs`, i.e. undefined behaviour); everything else throws. -/
def Equal (fuel : Nat) (lhs rhs : Value) (st : State) :
    Except Err Bool × State :=
  match fuel with
  | 0 => (.error .outOfFuel, st)
  | fuel + 1 =>
    match lhs, rhs with
    | .none, .none => (.ok true, st)
    | .number a, .number b => (.ok (decide (a = b)), st)
    | .bool a, .bool b => (.ok (decide (a = b)), st)
    | .str a, .str b => (.ok (decide (a = b)), st)
    | .inst cl ref, _ =>
      if HasMethod cl EQ_METHOD 1 then
        match Call fuel cl ref EQ_METHOD [rhs] st with
        | (.ok (.bool b), st1) => (.ok b, st1)
        | (.ok _, st1) => (.error .nullDeref, st1)
        | (.error e, st1) => (.error e, st1)
      else (.error (.runtimeError cmpEqMsg), st)
    | _, _ => (.error (.runtimeError cmpEqMsg), st)

/-- `runtime::Less` (runtime.cpp:164): mirrors `Equal` with `<` and
`__lt__`, but an empty operand throws first. -/
def Less (fuel : Nat) (lhs rhs : Value) (st : State) :
    Except Err Bool × State :=
  match fuel with
  | 0 => (.error .outOfFuel, st)
  | fuel + 1 =>
    match lhs, rhs with
    | .none, _ => (.error (.runtimeError lessNoneMsg), st)
    | _, .none => (.error (.runtimeError lessNoneMsg), st)
    | .number a, .number b => (.ok (decide (a < b)), st)
    | .bool a, .bool b => (.ok (!a && b), st)
    | .str a, .str b => (.ok (strLt a b), st)
    | .inst cl ref, _ =>
      if HasMethod cl LT_METHOD 1 then
        match Call fuel cl ref LT_METHOD [rhs] st with
        | (.ok (.bool b), st1) => (.ok b, st1)
        | (.ok _, st1) => (.error .nullDeref, st1)
        | (.error e, st1) => (.error e, st1)
      else (.error (.runtimeError lessTypeMsg), st)
    | _, _ => (.error (.runtimeError lessTypeMsg), st)

end

/-- `runtime::NotEqual` (runtime.cpp:191): `!Equal(lhs, rhs, context)`. -/
def NotEqual (fuel : Nat) (lhs rhs : Value) (st : State) :
    Except Err Bool × State :=
  match Equal fuel lhs rhs st with
  | (.ok b, st1) => (.ok (!b), st1)
  | (.error e, st1) => (.error e, st1)

/-- `runtime::Greater` (runtime.cpp:195): `!Less(...) && NotEqual(...)`,
with C++ short-circuiting: when `Less` yields true the result is false and
`NotEqual` is not evaluated. -/
def Greater (fuel : Nat) (lhs rhs : Value) (st : State) :
    Except Err Bool × State :=
  match Less fuel lhs rhs st with
  | (.ok true, st1) => (.ok false, st1)
  | (.ok false, st1) => NotEqual fuel lhs rhs st1
  | (.error e, st1) => (.error e, st1)

/-- `runtime::LessOrEqual` (runtime.cpp:199): `Less(...) || Equal(...)`,
short-circuiting on a true `Less`. -/
def LessOrEqual (fuel : Nat) (lhs rhs : Value) (st : State) :
    Except Err Bool × State :=
  match Less fuel lhs rhs st with
  | (.ok true, st1) => (.ok true, st1)
  | (.ok false, st1) => Equal fuel lhs rhs st1
  | (.error e, st1) => (.error e, st1)

/-- `runtime::GreaterOrEqual` (runtime.cpp:203): `!Less(...)`. -/
def GreaterOrEqual (fuel : Nat) (lhs rhs : Value) (st : State) :
    Except Err Bool × State :=
  match Less fuel lhs rhs st with
  | (.ok b, st1) => (.ok (!b), st1)
  | (.error e, st1) => (.error e, st1)


/-! ## Lexer: theorems -/

theorem countIndent_single (t : Token) :
    countIndent [t] = if t = .Indent then 1 else 0 := by
  cases t <;> rfl

theorem countDedent_single (t : Token) :
    countDedent [t] = if t = .Dedent then 1 else 0 := by
  cases t <;> rfl

theorem countIndent_cons (t : Token) (l : List Token) :
    countIndent (t :: l) = countIndent [t] + countIndent l := by
  cases t <;> simp [countIndent] <;> omega

theorem countDedent_cons (t : Token) (l : List Token) :
    countDedent (t :: l) = countDedent [t] + countDedent l := by
  cases t <;> simp [countDedent] <;> omega

/-! ## Lexer: structural lemmas -/

theorem ReadNextLine_indent (i : List (List Char)) (ctx : Context) :
    (ReadNextLine i ctx).ctx.indent = ctx.indent := by
  induction i generalizing ctx with
  | nil => rfl
  | cons l rest ih =>
    simp only [ReadNextLine]
    split
    · exact ih ctx
    · split
      · exact ih ctx
      · rfl

theorem ReadNextLine_eof_or_line (i : List (List Char)) (ctx : Context) :
    (ReadNextLine i ctx).eof = true ∨ (ReadNextLine i ctx).line ≠ [] := by
  induction i generalizing ctx with
  | nil => exact Or.inl rfl
  | cons l rest ih =>
    simp only [ReadNextLine]
    split
    · exact ih ctx
    · split
      · exact ih ctx
      · exact Or.inr (by simp)

theorem readTokenPass_ne_none_of (st : LexerState)
    (h : st.eof = true ∨ st.line ≠ []) : readTokenPass st ≠ none := by
  intro hn
  simp only [readTokenPass] at hn
  repeat' split at hn
  all_goals try exact Option.noConfusion hn
  simp_all

theorem readTokenPass_refill_ne_none (st : LexerState) :
    readTokenPass (refill st) ≠ none := by
  apply readTokenPass_ne_none_of
  have := ReadNextLine_eof_or_line st.input st.ctx
  simpa [refill] using this

set_option maxHeartbeats 2000000 in
set_option maxHeartbeats 2000000 in
theorem ReadKeyword_kind (lit : List Char) :
    ReadKeyword lit ≠ .Indent ∧ ReadKeyword lit ≠ .Dedent ∧ ReadKeyword lit ≠ .Eof := by
  refine ⟨?_, ?_, ?_⟩ <;>
    (intro h
     unfold ReadKeyword at h
     repeat' split at h
     all_goals cases h)

theorem ReadCompareOperator_kind (c : Char) :
    ReadCompareOperator c ≠ .Indent ∧ ReadCompareOperator c ≠ .Dedent ∧
      ReadCompareOperator c ≠ .Eof := by
  refine ⟨?_, ?_, ?_⟩ <;>
    (intro h
     unfold ReadCompareOperator at h
     repeat' split at h
     all_goals cases h)

theorem readFromLine_kind (c : Char) (l : List Char) :
    (readFromLine c l).1 ≠ .Indent ∧ (readFromLine c l).1 ≠ .Dedent ∧
      (readFromLine c l).1 ≠ .Eof := by
  have key : ∀ t l2, readFromLine c l = (t, l2) →
      t ≠ .Indent ∧ t ≠ .Dedent ∧ t ≠ .Eof := by
    intro t l2 heq
    simp only [readFromLine] at heq
    repeat' split at heq
    all_goals cases heq
    all_goals first
      | exact ReadKeyword_kind _
      | exact ReadCompareOperator_kind _
      | simp
  exact key (readFromLine c l).1 (readFromLine c l).2 rfl

theorem readTokenPass_step (st : LexerState) (t : Token) (st1 : LexerState)
    (h : readTokenPass st = some (t, st1)) :
    st.ctx.indent + countIndent [t] = st1.ctx.indent + countDedent [t] := by
  simp only [readTokenPass] at h
  repeat' split at h
  all_goals cases h
  all_goals first
    | rw [countIndent_single, countDedent_single,
          if_neg (readFromLine_kind _ _).1, if_neg (readFromLine_kind _ _).2.1]
    | (simp [countIndent_single, countDedent_single]; try omega)

theorem readTokenPass_eof (st : LexerState) (st1 : LexerState)
    (h : readTokenPass st = some (.Eof, st1)) :
    st1 = st ∧ st.ctx.indent = 0 ∧ st.ctx.new_indent = 0 ∧ st.line = [] ∧
      st.eof = true := by
  simp only [readTokenPass] at h
  repeat' split at h
  all_goals try cases h
  all_goals first
    | (simp only [Option.some.injEq, Prod.mk.injEq] at h
       exact absurd h.1 (readFromLine_kind _ _).2.2)
    | exact ⟨rfl, by omega, by omega, by assumption, by assumption⟩

theorem readToken_step (st : LexerState) :
    st.ctx.indent + countIndent [(readToken st).1] =
      (readToken st).2.ctx.indent + countDedent [(readToken st).1] := by
  unfold readToken
  cases hp : readTokenPass st with
  | some r => exact readTokenPass_step st r.1 r.2 (by rw [hp])
  | none =>
    have hind : (refill st).ctx.indent = st.ctx.indent :=
      ReadNextLine_indent st.input st.ctx
    cases hp2 : readTokenPass (refill st) with
    | some r =>
      have := readTokenPass_step (refill st) r.1 r.2 (by rw [hp2])
      simpa [hind] using this
    | none => exact absurd hp2 (readTokenPass_refill_ne_none st)

theorem readToken_eof_fix (st st1 : LexerState)
    (h : readToken st = (.Eof, st1)) :
    st1.ctx.indent = 0 ∧ readToken st1 = (.Eof, st1) := by
  unfold readToken at h
  cases hp : readTokenPass st with
  | some r =>
    rw [hp] at h
    subst h
    obtain ⟨hst, hi, _, _, _⟩ := readTokenPass_eof st st1 hp
    subst hst
    refine ⟨hi, ?_⟩
    unfold readToken
    rw [hp]
  | none =>
    rw [hp] at h
    cases hp2 : readTokenPass (refill st) with
    | some r =>
      rw [hp2] at h
      subst h
      obtain ⟨hst, hi, _, _, _⟩ := readTokenPass_eof (refill st) st1 hp2
      subst hst
      refine ⟨hi, ?_⟩
      unfold readToken
      rw [hp2]
    | none => exact absurd hp2 (readTokenPass_refill_ne_none st)

theorem runState_fix (st : LexerState) (h : readToken st = (.Eof, st)) :
    ∀ n, runState st n = st := by
  intro n
  induction n with
  | zero => rfl
  | succ n ih => simp only [runState, h, ih]

theorem tokensFrom_invariant (n : Nat) (st : LexerState) :
    st.ctx.indent + countIndent (tokensFrom st n) =
      (runState st n).ctx.indent + countDedent (tokensFrom st n) := by
  induction n generalizing st with
  | zero => rfl
  | succ n ih =>
    simp only [tokensFrom, runState]
    rw [countIndent_cons, countDedent_cons]
    have hstep := readToken_step st
    have hrec := ih (readToken st).2
    omega

theorem tokensFrom_eof_indent (n : Nat) (st : LexerState)
    (h : Token.Eof ∈ tokensFrom st n) :
    (runState st n).ctx.indent = 0 := by
  induction n generalizing st with
  | zero => cases h
  | succ n ih =>
    simp only [tokensFrom] at h
    rcases List.mem_cons.mp h with he | ht
    · have hrt : readToken st = (.Eof, (readToken st).2) := by
        rw [he]
      obtain ⟨hi, hfix⟩ := readToken_eof_fix st (readToken st).2 hrt
      simp only [runState]
      rw [runState_fix _ hfix n]
      exact hi
    · simp only [runState]
      exact ih (readToken st).2 ht

theorem Lexer_init_indent (cs : List Char) : (Lexer.init cs).ctx.indent = 0 := by
  simp only [Lexer.init, refill]
  exact ReadNextLine_indent (splitLines cs) ⟨0, 0⟩

/-- C1.  Over any character stream, at every prefix of the token stream the
number of `Dedent` tokens never exceeds the number of `Indent` tokens, and as
soon as `Eof` has been emitted the two counts are equal (every `Indent` has
been matched by a `Dedent`). -/
theorem lexer_indent_dedent_balance (cs : List Char) (n : Nat) :
    countDedent (lexTokens cs n) ≤ countIndent (lexTokens cs n) ∧
      (Token.Eof ∈ lexTokens cs n →
        countIndent (lexTokens cs n) = countDedent (lexTokens cs n)) := by
  have hinv := tokensFrom_invariant n (Lexer.init cs)
  rw [Lexer_init_indent] at hinv
  constructor
  · unfold lexTokens
    omega
  · intro hmem
    have hz := tokensFrom_eof_indent n (Lexer.init cs) hmem
    unfold lexTokens
    omega

/-- Witness for C1 on a concrete two-level program. -/
theorem lexer_indent_dedent_balance_witness :
    countDedent (lexTokens "class A:\n  def f(s):\n    return 1\nx = 2".toList 25) ≤
        countIndent (lexTokens "class A:\n  def f(s):\n    return 1\nx = 2".toList 25) ∧
      (Token.Eof ∈ lexTokens "class A:\n  def f(s):\n    return 1\nx = 2".toList 25 →
        countIndent (lexTokens "class A:\n  def f(s):\n    return 1\nx = 2".toList 25) =
          countDedent (lexTokens "class A:\n  def f(s):\n    return 1\nx = 2".toList 25)) :=
  lexer_indent_dedent_balance "class A:\n  def f(s):\n    return 1\nx = 2".toList 25


theorem ReadString_unterminated :
    ∀ (line : List Char) (qc : Char), closesString qc line = false →
      (ReadString line qc).2 = []
  | [], _, _ => rfl
  | c :: rest, qc, h => by
    rw [closesString.eq_def] at h
    rw [ReadString.eq_def]
    dsimp only at h ⊢
    by_cases hc : c = qc
    · rw [if_pos hc] at h
      cases h
    · rw [if_neg hc] at h
      rw [if_neg hc]
      by_cases hb : c = '\\'
      · rw [if_pos hb] at h
        rw [if_pos hb]
        cases rest with
        | nil => rfl
        | cons e rest2 =>
          dsimp only at h ⊢
          have ih := ReadString_unterminated rest2 qc h
          rw [apply_ite Prod.snd, apply_ite Prod.snd, apply_ite Prod.snd,
            apply_ite Prod.snd, apply_ite Prod.snd, apply_ite Prod.snd]
          simpa using ih
      · rw [if_neg hb] at h
        rw [if_neg hb]
        have ih := ReadString_unterminated rest qc h
        simpa using ih

theorem skipSpaces_no_space (c : Char) (line : List Char) (h : ¬ c = ' ') :
    skipSpaces c line = (c, line) := by
  rw [skipSpaces.eq_def]
  simp [h]

/-- C6 (amended).  When a string literal opened by quote `c` is never closed
on the rest of the line, `Lexer::ReadToken` still produces a `String` token:
`details::ReadString` consumes the whole remaining buffer, processes escapes,
and returns normally — lexer.cpp has no failure path at all, so no `LexError`
is raised. -/
theorem unterminated_string_reads_to_line_end (c : Char) (line : List Char)
    (hq : c = '"' ∨ c = '\'') (hcl : closesString c line = false) :
    readFromLine c line = (.String (ReadString line c).1, []) := by
  have h2 := ReadString_unterminated line c hcl
  rcases hq with hq | hq <;> subst hq <;>
    (simp [readFromLine, skipSpaces_no_space, IsSpecialChar, Char.isAlpha,
       Char.isUpper, Char.isLower, Char.isDigit]
     rw [h2])

/-- Witness for `unterminated_string_reads_to_line_end` at a concrete
unterminated literal. -/
theorem unterminated_string_reads_to_line_end_witness :
    readFromLine '\'' ['a', 'b', 'c', '\n'] =
      (.String (ReadString ['a', 'b', 'c', '\n'] '\'').1, []) :=
  unterminated_string_reads_to_line_end '\'' ['a', 'b', 'c', '\n']
    (Or.inr rfl) (by decide)

/-- Counterexample to C6 as stated: on the input consisting of the single
line `'abc` the string literal is opened and never closed, yet the lexer
produces a `String` token (holding the rest of the line, including the
appended newline) followed by `Eof` — it does not fail. -/
theorem unterminated_string_token_counterexample :
    lexTokens "'abc".toList 2 = [Token.String "abc\n".toList, Token.Eof] := by
  rfl

/-- C7 (amended).  Inside a string literal the escapes `\n \t \r \\ \' \"`
map to the corresponding single characters, while every other
backslash-escape is dropped entirely: neither the backslash nor the escaped
character appears in the payload (the C++ `switch` has no default case). -/
theorem ReadString_escape_behavior (qc : Char) (hq : qc = '"' ∨ qc = '\'') :
    (∀ rest, ReadString ('\\' :: 'n' :: rest) qc =
      ('\n' :: (ReadString rest qc).1, (ReadString rest qc).2)) ∧
    (∀ rest, ReadString ('\\' :: 't' :: rest) qc =
      ('\t' :: (ReadString rest qc).1, (ReadString rest qc).2)) ∧
    (∀ rest, ReadString ('\\' :: 'r' :: rest) qc =
      ('\r' :: (ReadString rest qc).1, (ReadString rest qc).2)) ∧
    (∀ rest, ReadString ('\\' :: '\\' :: rest) qc =
      ('\\' :: (ReadString rest qc).1, (ReadString rest qc).2)) ∧
    (∀ rest, ReadString ('\\' :: '\'' :: rest) qc =
      ('\'' :: (ReadString rest qc).1, (ReadString rest qc).2)) ∧
    (∀ rest, ReadString ('\\' :: '"' :: rest) qc =
      ('"' :: (ReadString rest qc).1, (ReadString rest qc).2)) ∧
    (∀ e rest, e ≠ 'n' → e ≠ 't' → e ≠ 'r' → e ≠ '\\' → e ≠ '\'' → e ≠ '"' →
      ReadString ('\\' :: e :: rest) qc = ReadString rest qc) := by
  have hbq : ('\\' : Char) ≠ qc := by
    rcases hq with hq | hq <;> subst hq <;> decide
  refine ⟨?_, ?_, ?_, ?_, ?_, ?_, ?_⟩
  · intro rest; simp [ReadString, hbq]
  · intro rest; simp [ReadString, hbq]
  · intro rest; simp [ReadString, hbq]
  · intro rest; simp [ReadString, hbq]
  · intro rest; simp [ReadString, hbq]
  · intro rest; simp [ReadString, hbq]
  · intro e rest h1 h2 h3 h4 h5 h6
    simp [ReadString, hbq, h1, h2, h3, h4, h5, h6]

/-- Witness for `ReadString_escape_behavior`: the unknown escape `\x` is
dropped. -/
theorem ReadString_escape_behavior_witness :
    ReadString ['\\', 'x', 'a', '\''] '\'' = ReadString ['a', '\''] '\'' :=
  (ReadString_escape_behavior '\'' (Or.inr rfl)).2.2.2.2.2.2 'x' ['a', '\'']
    (by decide) (by decide) (by decide) (by decide) (by decide) (by decide)

/-- Counterexample to C7 as stated: lexing the line `'a\xb'` yields the
`String` payload `ab` — the unknown escape `\x` does not appear literally,
it is dropped altogether. -/
theorem escape_literal_counterexample :
    lexTokens "'a\\xb'".toList 3 =
        [Token.String ['a', 'b'], Token.Newline, Token.Eof] ∧
      (['a', 'b'] : List Char) ≠ ['a', '\\', 'x', 'b'] := by
  constructor
  · rfl
  · decide


/-! ## Runtime: claim theorems -/

/-- C4.  `IsTrue` returns false for the missing value, tests a `Number`
against zero, passes a `Bool` through, tests a `String` for non-emptiness,
and returns false for every other value, including class objects and class
instances. -/
theorem IsTrue_spec :
    IsTrue Value.none = false ∧
    (∀ n : Int, (IsTrue (.number n) = true ↔ n ≠ 0)) ∧
    (∀ b : Bool, IsTrue (.bool b) = b) ∧
    (∀ s : List Char, (IsTrue (.str s) = true ↔ s ≠ [])) ∧
    (∀ cl : Cls, IsTrue (.cls cl) = false) ∧
    (∀ cl : Cls, ∀ ref : Nat, IsTrue (.inst cl ref) = false) := by
  refine ⟨rfl, ?_, ?_, ?_, ?_, ?_⟩ <;> intros <;> simp [IsTrue]

/-- Witness for `IsTrue_spec` at concrete values. -/
theorem IsTrue_spec_witness :
    IsTrue (.number 5) = true ∧ IsTrue Value.none = false :=
  ⟨(IsTrue_spec.2.1 5).mpr (by decide), IsTrue_spec.1⟩

/-- C2.  With both operands evaluating to numbers, `Div::Execute` returns
the quotient truncated toward zero when the divisor is strictly positive and
throws `runtime_error("Division by zero")` for every divisor that is zero or
negative; it never returns a value for a non-positive divisor. -/
theorem Div_Execute_spec (fuel : Nat) (lhs rhs : Stmt) (c c1 c2 : Closure)
    (st st1 st2 : State) (a b : Int)
    (hl : Execute fuel lhs c st = (.ok (.number a), c1, st1))
    (hr : Execute fuel rhs c1 st1 = (.ok (.number b), c2, st2)) :
    (0 < b → Execute (fuel + 1) (.Div lhs rhs) c st =
      (.ok (.number (Int.tdiv a b)), c2, st2)) ∧
    (b ≤ 0 → Execute (fuel + 1) (.Div lhs rhs) c st =
      (.error (.runtimeError divZeroMsg), c2, st2)) := by
  constructor <;> intro hb <;>
    (simp only [Execute]
     rw [hl]
     simp only []
     rw [hr]
     simp only [])
  · rw [if_pos hb]
  · rw [if_neg (by omega)]

/-- Witness for `Div_Execute_spec`: `-7 / 2` truncates to `-3`. -/
theorem Div_Execute_spec_witness :
    Execute 2 (.Div (.VariableValue ["x".toList]) (.VariableValue ["y".toList]))
        [("x".toList, .number (-7)), ("y".toList, .number 2)] ⟨[], []⟩ =
      (.ok (.number (-3)),
        [("x".toList, .number (-7)), ("y".toList, .number 2)], ⟨[], []⟩) :=
  (Div_Execute_spec 1 (.VariableValue ["x".toList]) (.VariableValue ["y".toList])
    [("x".toList, .number (-7)), ("y".toList, .number 2)]
    [("x".toList, .number (-7)), ("y".toList, .number 2)]
    [("x".toList, .number (-7)), ("y".toList, .number 2)]
    ⟨[], []⟩ ⟨[], []⟩ ⟨[], []⟩ (-7) 2 rfl rfl).1 (by decide)

/-- C5.  Whenever `Equal` and `Less` are defined on a pair of operands (they
return a boolean without touching the state), the derived comparisons
satisfy `NotEqual = !Equal`, `Greater = !Less && !Equal`,
`LessOrEqual = Less || Equal` and `GreaterOrEqual = !Less`, including the
C++ short-circuit behaviour. -/
theorem derived_comparisons_spec (fuel : Nat) (lhs rhs : Value) (e l : Bool)
    (hE : ∀ st : State, Equal fuel lhs rhs st = (.ok e, st))
    (hL : ∀ st : State, Less fuel lhs rhs st = (.ok l, st)) :
    ∀ st : State,
      NotEqual fuel lhs rhs st = (.ok (!e), st) ∧
      Greater fuel lhs rhs st = (.ok (!l && !e), st) ∧
      LessOrEqual fuel lhs rhs st = (.ok (l || e), st) ∧
      GreaterOrEqual fuel lhs rhs st = (.ok (!l), st) := by
  intro st
  have hne : NotEqual fuel lhs rhs st = (.ok (!e), st) := by
    simp only [NotEqual]
    rw [hE st]
  refine ⟨hne, ?_, ?_, ?_⟩
  · simp only [Greater]
    rw [hL st]
    cases l
    · simpa using hne
    · simp
  · simp only [LessOrEqual]
    rw [hL st]
    cases l
    · simpa using hE st
    · simp
  · simp only [GreaterOrEqual]
    rw [hL st]

/-- Witness for `derived_comparisons_spec` on the numbers 1 and 2. -/
theorem derived_comparisons_spec_witness :
    NotEqual 1 (.number 1) (.number 2) ⟨[], []⟩ = (.ok true, ⟨[], []⟩) ∧
    Greater 1 (.number 1) (.number 2) ⟨[], []⟩ = (.ok false, ⟨[], []⟩) ∧
    LessOrEqual 1 (.number 1) (.number 2) ⟨[], []⟩ = (.ok true, ⟨[], []⟩) ∧
    GreaterOrEqual 1 (.number 1) (.number 2) ⟨[], []⟩ = (.ok false, ⟨[], []⟩) :=
  derived_comparisons_spec 1 (.number 1) (.number 2) false true
    (fun _ => rfl) (fun _ => rfl) ⟨[], []⟩


/-- C3 (amended).  `ClassInstance::Call` fails with
`runtime_error("Method <name> has not found")` exactly when `HasMethod` is
false, i.e. when the FIRST method of that name found walking the chain does
not exist or has a different arity; when the first name match has matching
arity, the call dispatches: it executes that method's body in a fresh
closure binding `self` and the formal parameters.  (A deeper class can NOT
satisfy the arity check once a nearer one shadows the name.) -/
theorem Call_first_match_dispatch (fuel : Nat) (cls : Cls) (ref : Nat)
    (method : List Char) (args : List Value) (st : State) :
    (HasMethod cls method args.length = false →
      Call (fuel + 1) cls ref method args st =
        (.error (.runtimeError (methodNotFoundMsg method)), st)) ∧
    (∀ m : Method, Cls.GetMethod cls method = some m →
      m.formal_params.length = args.length →
      Call (fuel + 1) cls ref method args st =
        (let r := Execute fuel m.body
            (bindParams m.formal_params args
              (closureSet [] SELF_NAME (.inst cls ref))) st
         (r.1, r.2.2))) := by
  constructor
  · intro h
    simp only [Call]
    rw [if_neg (by simp [h])]
  · intro m hm harity
    have hh : HasMethod cls method args.length = true := by
      simp [HasMethod, hm, harity]
    simp only [Call]
    rw [if_pos hh, hm]

/-- Witness for `Call_first_match_dispatch`: a direct arity match
dispatches into the body (here the body's `Return` escapes `Call` as the
return signal, since no `MethodBody` wraps it). -/
theorem Call_first_match_dispatch_witness :
    Call 3 (Cls.mk "W".toList
        [Method.mk "f".toList ["a".toList] (.Return (.VariableValue ["a".toList]))]
        Option.none) 0 "f".toList [.number 7] ⟨[], []⟩ =
      (.error (.returnSignal (.number 7)), ⟨[], []⟩) :=
  (Call_first_match_dispatch 2 (Cls.mk "W".toList
      [Method.mk "f".toList ["a".toList] (.Return (.VariableValue ["a".toList]))]
      Option.none) 0 "f".toList [.number 7] ⟨[], []⟩).2
    (Method.mk "f".toList ["a".toList] (.Return (.VariableValue ["a".toList])))
    rfl rfl

/-- Counterexample to C3 as stated: class `C` (method `f` with no
parameters) extends `P` (method `f` with one parameter).  Calling `f` on a
`C` instance with one argument fails with the method-not-found error even
though `P` — a class in the chain — has an `f` of matching arity: lookup
stops at the first name match and checks only its arity. -/
theorem Call_shadowed_arity_counterexample :
    Call 5 (Cls.mk "C".toList
        [Method.mk "f".toList [] (.Return (.VariableValue ["self".toList]))]
        (some (Cls.mk "P".toList
          [Method.mk "f".toList ["a".toList] (.Return (.VariableValue ["a".toList]))]
          Option.none))) 0 "f".toList [.number 1] ⟨[], []⟩ =
      (.error (.runtimeError (methodNotFoundMsg "f".toList)), ⟨[], []⟩) ∧
    (Cls.GetMethod (Cls.mk "P".toList
        [Method.mk "f".toList ["a".toList] (.Return (.VariableValue ["a".toList]))]
        Option.none) "f".toList).map (fun m => m.formal_params.length) =
      some 1 :=
  ⟨rfl, rfl⟩

/-- C8 (amended).  `MethodCall::Execute` first evaluates the argument
expressions left to right, THEN evaluates the receiver object expression,
and then dispatches `Call` on the resulting instance (anything that is not
an instance is dereferenced as a null pointer); argument side effects occur
before receiver side effects. -/
theorem MethodCall_args_then_object (fuel : Nat) (object : Stmt)
    (method : List Char) (args : List Stmt) (c : Closure) (st : State)
    (vs : List Value) (c1 : Closure) (st1 : State) (v : Value) (c2 : Closure)
    (st2 : State)
    (hargs : ExecuteList fuel args c st = (.ok vs, c1, st1))
    (hobj : Execute fuel object c1 st1 = (.ok v, c2, st2)) :
    Execute (fuel + 1) (.MethodCall object method args) c st =
      match v with
      | .inst cls ref =>
        (let r := Call fuel cls ref method vs st2
         (r.1, c2, r.2))
      | _ => (.error .nullDeref, c2, st2) := by
  cases v <;>
    (simp only [Execute]
     rw [hargs]
     simp only []
     rw [hobj]
     try rfl)

/-- Witness for `MethodCall_args_then_object` on a one-argument call that
dispatches successfully. -/
theorem MethodCall_args_then_object_witness :
    Execute 6 (.MethodCall (.VariableValue ["o".toList]) "m".toList
        [.VariableValue ["x".toList]])
      [("o".toList, .inst (Cls.mk "W8".toList
        [Method.mk "m".toList ["p".toList]
          (.MethodBody (.Return (.VariableValue ["p".toList])))] Option.none) 0),
       ("x".toList, .number 7)] ⟨[], []⟩ =
      (.ok (.number 7),
       [("o".toList, .inst (Cls.mk "W8".toList
         [Method.mk "m".toList ["p".toList]
           (.MethodBody (.Return (.VariableValue ["p".toList])))] Option.none) 0),
        ("x".toList, .number 7)], ⟨[], []⟩) :=
  MethodCall_args_then_object 5 (.VariableValue ["o".toList]) "m".toList
    [.VariableValue ["x".toList]]
    [("o".toList, .inst (Cls.mk "W8".toList
      [Method.mk "m".toList ["p".toList]
        (.MethodBody (.Return (.VariableValue ["p".toList])))] Option.none) 0),
     ("x".toList, .number 7)] ⟨[], []⟩
    [.number 7]
    [("o".toList, .inst (Cls.mk "W8".toList
      [Method.mk "m".toList ["p".toList]
        (.MethodBody (.Return (.VariableValue ["p".toList])))] Option.none) 0),
     ("x".toList, .number 7)] ⟨[], []⟩
    (.inst (Cls.mk "W8".toList
      [Method.mk "m".toList ["p".toList]
        (.MethodBody (.Return (.VariableValue ["p".toList])))] Option.none) 0)
    [("o".toList, .inst (Cls.mk "W8".toList
      [Method.mk "m".toList ["p".toList]
        (.MethodBody (.Return (.VariableValue ["p".toList])))] Option.none) 0),
     ("x".toList, .number 7)] ⟨[], []⟩
    rfl rfl

/-- Counterexample to C8 as stated: with the receiver expression printing
`R` and the single argument expression printing `A`, the accumulated output
is `A\nR\n` — the argument's side effect comes FIRST, refuting
receiver-before-arguments (the call then dereferences the non-instance
receiver value as a null pointer). -/
theorem MethodCall_order_counterexample :
    Execute 9 (.MethodCall (.Print [.VariableValue ["r".toList]]) "m".toList
        [.Print [.VariableValue ["a".toList]]])
      [("r".toList, .str "R".toList), ("a".toList, .str "A".toList)] ⟨[], []⟩ =
      (.error .nullDeref,
       [("r".toList, .str "R".toList), ("a".toList, .str "A".toList)],
       ⟨[], "A\nR\n".toList⟩) :=
  rfl

/-- C9 (amended).  `NewInstance::Execute` returns a freshly allocated
instance; the argument expressions are evaluated and `__init__` is invoked
exactly when the FIRST `__init__` found walking the chain has arity equal to
the number of argument expressions (`HasMethod`); otherwise — no `__init__`
at all, or a nearer `__init__` of different arity shadowing a matching one —
the arguments are not evaluated and no error is raised. -/
theorem NewInstance_first_match_init (fuel : Nat) (cls : Cls)
    (args : List Stmt) (c : Closure) (st : State) :
    (HasMethod cls INIT_METHOD args.length = false →
      Execute (fuel + 1) (.NewInstance cls args) c st =
        (.ok (.inst cls st.heap.length), c, { st with heap := st.heap ++ [[]] })) ∧
    (∀ (params : List Value) (c2 : Closure) (st2 : State) (w : Value)
        (st3 : State),
      HasMethod cls INIT_METHOD args.length = true →
      ExecuteList fuel args c { st with heap := st.heap ++ [[]] } =
        (.ok params, c2, st2) →
      Call fuel cls st.heap.length INIT_METHOD params st2 = (.ok w, st3) →
      Execute (fuel + 1) (.NewInstance cls args) c st =
        (.ok (.inst cls st.heap.length), c2, st3)) := by
  constructor
  · intro h
    simp only [Execute]
    rw [if_neg (by simp [h])]
  · intro params c2 st2 w st3 h hargs hcall
    simp only [Execute]
    rw [if_pos h, hargs]
    simp only []
    rw [hcall]

/-- Witness for `NewInstance_first_match_init`: a matching `__init__`
evaluates its argument and runs, storing a field on the new instance. -/
theorem NewInstance_first_match_init_witness :
    Execute 4 (.NewInstance (Cls.mk "K".toList
        [Method.mk "__init__".toList ["p".toList]
          (.FieldAssignment ["self".toList] "v".toList
            (.VariableValue ["p".toList]))] Option.none)
        [.VariableValue ["x".toList]])
      [("x".toList, .number 5)] ⟨[], []⟩ =
      (.ok (.inst (Cls.mk "K".toList
        [Method.mk "__init__".toList ["p".toList]
          (.FieldAssignment ["self".toList] "v".toList
            (.VariableValue ["p".toList]))] Option.none) 0),
       [("x".toList, .number 5)], ⟨[[("v".toList, .number 5)]], []⟩) :=
  (NewInstance_first_match_init 3 (Cls.mk "K".toList
      [Method.mk "__init__".toList ["p".toList]
        (.FieldAssignment ["self".toList] "v".toList
          (.VariableValue ["p".toList]))] Option.none)
    [.VariableValue ["x".toList]] [("x".toList, .number 5)] ⟨[], []⟩).2
    [.number 5] [("x".toList, .number 5)] ⟨[[]], []⟩ (.number 5)
    ⟨[[("v".toList, .number 5)]], []⟩ rfl rfl rfl

/-- Counterexample to C9 as stated: class `C` defines `__init__(a, b)` and
extends `P` with `__init__(a)`.  Constructing a `C` with ONE argument (whose
evaluation would print) evaluates nothing — output and closure are
untouched, no `__init__` runs, no error is raised, the fresh instance is
returned — even though the class chain defines an `__init__` of arity 1
in `P`. -/
theorem NewInstance_shadowed_init_counterexample :
    Execute 9 (.NewInstance (Cls.mk "C".toList
        [Method.mk "__init__".toList ["a".toList, "b".toList]
          (.Return (.VariableValue ["a".toList]))]
        (some (Cls.mk "P".toList
          [Method.mk "__init__".toList ["a".toList]
            (.Return (.VariableValue ["a".toList]))] Option.none)))
        [.Print [.VariableValue ["a".toList]]])
      [("a".toList, .str "A".toList)] ⟨[], []⟩ =
      (.ok (.inst (Cls.mk "C".toList
        [Method.mk "__init__".toList ["a".toList, "b".toList]
          (.Return (.VariableValue ["a".toList]))]
        (some (Cls.mk "P".toList
          [Method.mk "__init__".toList ["a".toList]
            (.Return (.VariableValue ["a".toList]))] Option.none))) 0),
       [("a".toList, .str "A".toList)], ⟨[[]], []⟩) ∧
    (Cls.GetMethod (Cls.mk "P".toList
        [Method.mk "__init__".toList ["a".toList]
          (.Return (.VariableValue ["a".toList]))] Option.none)
      INIT_METHOD).map (fun m => m.formal_params.length) = some 1 :=
  ⟨rfl, rfl⟩

/-- C10 (amended).  Printing a class instance calls its `__str__` and prints
the result when the FIRST `__str__` found walking the chain has arity 0;
otherwise — no `__str__`, or a nearer `__str__` of different arity — it
writes the instance's address (modelled as the heap reference in
hexadecimal) instead of failing. -/
theorem ClassInstance_Print_str (fuel : Nat) (cl : Cls) (ref : Nat)
    (st : State) :
    (HasMethod cl STR_METHOD 0 = false →
      ObjectPrint (fuel + 1) (.inst cl ref) st = (.ok (addressChars ref), st)) ∧
    (∀ (v2 : Value) (st1 : State), HasMethod cl STR_METHOD 0 = true →
      Call fuel cl ref STR_METHOD [] st = (.ok v2, st1) → v2 ≠ .none →
      ObjectPrint (fuel + 1) (.inst cl ref) st = ObjectPrint fuel v2 st1) := by
  constructor
  · intro h
    simp only [ObjectPrint]
    rw [if_neg (by simp [h])]
  · intro v2 st1 h hcall hv2
    simp only [ObjectPrint]
    rw [if_pos h, hcall]
    cases v2 with
    | none => exact absurd rfl hv2
    | number n => rfl
    | str cs => rfl
    | bool b => rfl
    | cls cc => rfl
    | inst cc r => rfl

/-- Witness for `ClassInstance_Print_str`: a zero-arity `__str__` returning
a field value is printed. -/
theorem ClassInstance_Print_str_witness :
    ObjectPrint 3 (.inst (Cls.mk "S".toList
        [Method.mk "__str__".toList []
          (.VariableValue ["self".toList, "msg".toList])] Option.none) 0)
      ⟨[[("msg".toList, .str "hi".toList)]], []⟩ =
      ObjectPrint 2 (.str "hi".toList)
        ⟨[[("msg".toList, .str "hi".toList)]], []⟩ :=
  (ClassInstance_Print_str 2 (Cls.mk "S".toList
      [Method.mk "__str__".toList []
        (.VariableValue ["self".toList, "msg".toList])] Option.none) 0
    ⟨[[("msg".toList, .str "hi".toList)]], []⟩).2
    (.str "hi".toList) ⟨[[("msg".toList, .str "hi".toList)]], []⟩
    rfl rfl (by simp)

/-- Counterexample to C10 as stated: class `CS` defines `__str__(x)` and
extends `PS` with a zero-arity `__str__`.  Printing a `CS` instance writes
the address rendering, not the `__str__` result, even though the class
chain defines a `__str__` of arity 0 in `PS`. -/
theorem ClassInstance_Print_shadowed_counterexample :
    ObjectPrint 9 (.inst (Cls.mk "CS".toList
        [Method.mk "__str__".toList ["x".toList]
          (.Return (.VariableValue ["x".toList]))]
        (some (Cls.mk "PS".toList
          [Method.mk "__str__".toList []
            (.VariableValue ["self".toList])] Option.none))) 1)
      ⟨[], []⟩ = (.ok (addressChars 1), ⟨[], []⟩) ∧
    (Cls.GetMethod (Cls.mk "PS".toList
        [Method.mk "__str__".toList []
          (.VariableValue ["self".toList])] Option.none)
      STR_METHOD).map (fun m => m.formal_params.length) = some 0 :=
  ⟨rfl, rfl⟩
